import Mathlib

/-!
Verification of the teacher-rag-app backend (src/backend/ingest.py and
src/backend/main.py) against its natural-language specification.

The Python code is shallowly embedded: strings are Lean `String`
(Python `len` counts code points, as does `String.length`), Python lists
are Lean `List`, Python `None`-able strings are `Option String`, and the
request handler's effects (vector-store query, model streaming, emitted
server-sent events) are made explicit as data.  Whitespace handling models
Python `str.strip()` over the ASCII whitespace set; `str.lower()` is
modelled for ASCII letters (the transcripts and patterns are ASCII).
-/

namespace TeacherRag

/-- ASCII whitespace characters recognised by Python str.strip(). -/
def isPySpace (c : Char) : Bool :=
  c = ' ' || c = '\t' || c = '\n' || c = '\r' || c = '\x0b' || c = '\x0c'

/-- Python str.strip() on a character list. -/
def pyStripList (l : List Char) : List Char :=
  ((l.dropWhile isPySpace).reverse.dropWhile isPySpace).reverse

/-- Python str.strip(). -/
def pyStrip (s : String) : String := String.mk (pyStripList s.data)

/-- Python str.split with separator the three characters of the arrow token,
scanning left to right, non-overlapping, keeping empty parts (exact
semantics of the source's timestamp.split in ingest.py). -/
def splitArrow : List Char → List (List Char)
  | '-' :: '-' :: '>' :: rest => [] :: splitArrow rest
  | c :: rest =>
    match splitArrow rest with
    | [] => [[c]]
    | h :: t => (c :: h) :: t
  | [] => [[]]

/-- Python content.split on a newline, used for the line split in
parse_webvtt_content (ingest.py line 35). -/
def splitNL : List Char → List (List Char)
  | '\n' :: rest => [] :: splitNL rest
  | c :: rest =>
    match splitNL rest with
    | [] => [[c]]
    | h :: t => (c :: h) :: t
  | [] => [[]]

/-- The membership test used by the source: the arrow token occurs in the
line.  A split with more than one part is exactly an occurrence. -/
def hasArrow (s : String) : Bool := (splitArrow s.data).length != 1

/-- timestamp.split(arrow)[0].strip() from ingest.py line 91. -/
def tsStart (ts : String) : String := pyStrip (String.mk ((splitArrow ts.data).headD []))

/-- timestamp.split(arrow)[1].strip() from ingest.py line 92.  In Python an
absent separator raises IndexError here; the model totalises with an empty
default, and every theorem about the chunker restricts to timestamps that
contain the separator, where both agree. -/
def tsEnd (ts : String) : String := pyStrip (String.mk ((splitArrow ts.data).getD 1 []))

/-- Python single-space str.join, as used for text lines (ingest.py line 58)
and as the reference notion of space-joined concatenation. -/
def joinStrings : List String → String
  | [] => ""
  | [s] => s
  | s :: s2 :: rest => s ++ " " ++ joinStrings (s2 :: rest)

/-- A parsed caption segment: the stripped time-range line and the joined
text (ingest.py lines 56-59). -/
structure Segment where
  timestamp : String
  text : String
deriving DecidableEq

/-- The inner loop of parse_webvtt_content (ingest.py lines 48-53):
collect stripped text lines until a blank line or a line containing the
arrow token; return the collected lines and the unconsumed remainder
(the breaking line is not consumed). -/
def collectText : List String → List String × List String
  | [] => ([], [])
  | l :: ls =>
    if pyStrip l = "" ∨ hasArrow (pyStrip l) = true then ([], l :: ls)
    else ((pyStrip l) :: (collectText ls).1, (collectText ls).2)

theorem collectText_rest_le (ls : List String) : (collectText ls).2.length ≤ ls.length := by
  induction ls with
  | nil => simp [collectText]
  | cons l ls ih =>
    by_cases h : pyStrip l = "" ∨ hasArrow (pyStrip l) = true
    · simp [collectText, h]
    · simp only [collectText, if_neg h]
      exact Nat.le_succ_of_le ih

/-- The outer loop of parse_webvtt_content (ingest.py lines 38-61): skip
lines without the arrow token; at an arrow line collect the following text
lines and emit a segment when at least one text line was collected. -/
def parseLoop : List String → List Segment
  | [] => []
  | l :: ls =>
    if hasArrow (pyStrip l) = true then
      (if (collectText ls).1 = [] then []
       else [{ timestamp := pyStrip l, text := joinStrings (collectText ls).1 }]) ++
        parseLoop (collectText ls).2
    else parseLoop ls
termination_by ls => ls.length
decreasing_by
  · exact Nat.lt_succ_of_le (collectText_rest_le ls)
  · exact Nat.lt_succ_self ls.length

/-- parse_webvtt_content (ingest.py lines 27-63). -/
def parse_webvtt_content (content : String) : List Segment :=
  parseLoop ((splitNL content.data).map (fun l => String.mk l))

/-- A chunk as built by create_chunks_from_segments: its text and the
timestamp range (ingest.py lines 80-84); the timestamps are Python
variables initialised to None, hence options. -/
structure Chunk where
  text : String
  timestamp_start : Option String
  timestamp_end : Option String
deriving DecidableEq

/-- The loop state of create_chunks_from_segments: emitted chunks plus the
accumulator variables current_text, start_timestamp, end_timestamp.
(The source also keeps a dead variable current_chunk that is reset but
never read; it is omitted.) -/
structure ChunkState where
  chunks : List Chunk
  current_text : String
  start_timestamp : Option String
  end_timestamp : Option String
deriving DecidableEq

/-- Python truthiness of an optional string: None and the empty string are
falsy (the `if not start_timestamp` test, ingest.py line 90). -/
def optFalsy : Option String → Bool
  | none => true
  | some s => s == ""

/-- One iteration of the loop of create_chunks_from_segments
(ingest.py lines 77-94): flush when the accumulator text is truthy and
adding the segment text would exceed chunk_size (strict >), then fold the
segment into the accumulator. -/
def stepSeg (chunk_size : Nat) (st : ChunkState) (seg : Segment) : ChunkState :=
  let st1 : ChunkState :=
    if st.current_text ≠ "" ∧ st.current_text.length + seg.text.length > chunk_size then
      { chunks := st.chunks ++
          [{ text := st.current_text, timestamp_start := st.start_timestamp,
             timestamp_end := st.end_timestamp }],
        current_text := "", start_timestamp := none, end_timestamp := st.end_timestamp }
    else st
  { chunks := st1.chunks,
    current_text :=
      if st1.current_text ≠ "" then st1.current_text ++ " " ++ seg.text else seg.text,
    start_timestamp :=
      if optFalsy st1.start_timestamp then some (tsStart seg.timestamp)
      else st1.start_timestamp,
    end_timestamp := some (tsEnd seg.timestamp) }

/-- The segment loop of create_chunks_from_segments. -/
def chunksLoop (chunk_size : Nat) (st : ChunkState) : List Segment → ChunkState
  | [] => st
  | seg :: rest => chunksLoop chunk_size (stepSeg chunk_size st seg) rest

/-- CHUNK_SIZE from ingest.py line 18. -/
def CHUNK_SIZE : Nat := 1000

/-- create_chunks_from_segments (ingest.py lines 66-104): run the loop from
the empty accumulator, then flush a final chunk if the accumulator text is
non-empty. -/
def create_chunks_from_segments (segments : List Segment) (chunk_size : Nat) : List Chunk :=
  let fin := chunksLoop chunk_size
    { chunks := [], current_text := "", start_timestamp := none, end_timestamp := none } segments
  if fin.current_text ≠ "" then
    fin.chunks ++
      [{ text := fin.current_text, timestamp_start := fin.start_timestamp,
         timestamp_end := fin.end_timestamp }]
  else fin.chunks

/-- Texts of a segment run joined by single spaces, the value the
accumulator text takes when the folded segment texts are non-empty. -/
def joinTexts (l : List Segment) : String := joinStrings (l.map (fun s => s.text))

/-- Instrumented replay of the chunker loop that additionally records which
segments were folded into each chunk.  The flush guard and the accumulator
text are computed exactly as in stepSeg, so the recorded runs follow the
source's flush decisions on every input. -/
def runsLoop (chunk_size : Nat) (runs : List (List Segment)) (cur : List Segment)
    (cur_text : String) : List Segment → List (List Segment) × List Segment × String
  | [] => (runs, cur, cur_text)
  | seg :: rest =>
    if cur_text ≠ "" ∧ cur_text.length + seg.text.length > chunk_size then
      runsLoop chunk_size (runs ++ [cur]) [seg] seg.text rest
    else
      runsLoop chunk_size runs (cur ++ [seg])
        (if cur_text ≠ "" then cur_text ++ " " ++ seg.text else seg.text) rest

/-- The runs of segments folded into the successive chunks of
create_chunks_from_segments, including the final flush. -/
def runsOf (segments : List Segment) (chunk_size : Nat) : List (List Segment) :=
  let p := runsLoop chunk_size [] [] ("") segments
  if p.2.2 ≠ "" then p.1 ++ [p.2.1] else p.1

/-- The value of start_timestamp after folding the segments of a run into a
reset accumulator: each fold sets it only when it is falsy (None or empty),
per ingest.py lines 90-91. -/
def startOfRun (r : List Segment) : Option String :=
  r.foldl (fun acc s => if optFalsy acc then some (tsStart s.timestamp) else acc) none

/-- The value of end_timestamp after folding a run: the end of the last
segment folded in (ingest.py line 92). -/
def endOfRun (r : List Segment) : Option String :=
  r.getLast?.map (fun s => tsEnd s.timestamp)

/-- The chunk a run of folded segments produces. -/
def mkChunk (r : List Segment) : Chunk :=
  { text := joinTexts r, timestamp_start := startOfRun r, timestamp_end := endOfRun r }

/-- Starting from accumulator text `acc`, every successive fold of the run
passed the size check: acc plus the next text never strictly exceeded the
threshold at the moment of its fold. -/
def foldsBounded (chunk_size : Nat) (acc : String) : List Segment → Bool
  | [] => true
  | s :: rest =>
    decide (acc.length + s.text.length ≤ chunk_size) &&
      foldsBounded chunk_size (acc ++ " " ++ s.text) rest

/-- A produced run is a single folded segment, or all folds after the first
passed the size check (the claim's oversized-singleton-or-bounded shape). -/
def runOkB (chunk_size : Nat) : List Segment → Bool
  | [] => false
  | s :: rest => rest.isEmpty || foldsBounded chunk_size s.text rest

/-- Text of the first segment of a run (empty for the empty run). -/
def headText : List Segment → String
  | [] => ""
  | s :: _ => s.text

/-- Every chunk boundary was forced: for each pair of consecutive runs, the
closed run's text plus the next run's first text strictly exceeds the
threshold (the accumulator is only flushed on a strict overflow). -/
def flushNec (chunk_size : Nat) (rs : List (List Segment)) : Prop :=
  List.Chain' (fun r1 r2 => (joinTexts r1).length + (headText r2).length > chunk_size) rs

/-- All segments of a list have non-empty text. -/
def AllNE (l : List Segment) : Prop := ∀ s ∈ l, s.text ≠ ""

/-- All segment timestamps contain the arrow separator (in Python, a
missing separator raises IndexError inside the chunker loop). -/
def AllArrow (l : List Segment) : Prop := ∀ s ∈ l, hasArrow s.timestamp = true

instance decAllNE (l : List Segment) : Decidable (AllNE l) :=
  inferInstanceAs (Decidable (∀ s ∈ l, s.text ≠ ""))

instance decAllArrow (l : List Segment) : Decidable (AllArrow l) :=
  inferInstanceAs (Decidable (∀ s ∈ l, hasArrow s.timestamp = true))

end TeacherRag

namespace TeacherRag

theorem joinStrings_cons_cons (a b : String) (t : List String) :
    joinStrings (a :: b :: t) = a ++ " " ++ joinStrings (b :: t) := rfl

theorem joinStrings_append (l1 l2 : List String) (h1 : l1 ≠ []) (h2 : l2 ≠ []) :
    joinStrings (l1 ++ l2) = joinStrings l1 ++ " " ++ joinStrings l2 := by
  induction l1 with
  | nil => exact absurd rfl h1
  | cons a t ih =>
    cases t with
    | nil =>
      cases l2 with
      | nil => exact absurd rfl h2
      | cons b t2 => simp [joinStrings_cons_cons, joinStrings]
    | cons a2 t2 =>
      have hsplit : ((a :: a2 :: t2) ++ l2) = a :: ((a2 :: t2) ++ l2) := rfl
      rw [hsplit, List.cons_append, joinStrings_cons_cons, ← List.cons_append,
        ih (by simp) , joinStrings_cons_cons]
      simp [String.append_assoc]

theorem joinStrings_concat (l : List String) (x : String) (h : l ≠ []) :
    joinStrings (l ++ [x]) = joinStrings l ++ " " ++ x :=
  joinStrings_append l [x] h (by simp)

theorem joinStrings_ne_empty (l : List String) (h : l ≠ []) (hx : ∀ x ∈ l, x ≠ "") :
    joinStrings l ≠ "" := by
  cases l with
  | nil => exact absurd rfl h
  | cons a t =>
    cases t with
    | nil => exact hx a (by simp)
    | cons b t2 =>
      rw [joinStrings_cons_cons]
      intro hcontra
      have hlen := congrArg String.length hcontra
      simp [String.length_append] at hlen
      exact absurd hlen.1.2 (by decide)

theorem joinTexts_ne_empty (l : List Segment) (h : l ≠ []) (hx : AllNE l) :
    joinTexts l ≠ "" := by
  apply joinStrings_ne_empty
  · simpa using h
  · intro x hxl
    obtain ⟨s, hs, rfl⟩ := List.mem_map.mp hxl
    exact hx s hs

theorem joinTexts_concat (l : List Segment) (s : Segment) (h : l ≠ []) :
    joinTexts (l ++ [s]) = joinTexts l ++ " " ++ s.text := by
  unfold joinTexts
  rw [List.map_append]
  exact joinStrings_concat _ _ (by simpa using h)

/-- Accumulator text after folding a run on top of an initial text. -/
def accText (a : String) (l : List Segment) : String :=
  l.foldl (fun b s => b ++ " " ++ s.text) a

theorem accText_append_left (l : List Segment) : ∀ (a b : String),
    accText (a ++ b) l = a ++ accText b l := by
  induction l with
  | nil => intro a b; rfl
  | cons t ts ih =>
    intro a b
    show accText (a ++ b ++ " " ++ t.text) ts = a ++ accText (b ++ " " ++ t.text) ts
    rw [String.append_assoc a b " ", String.append_assoc a (b ++ " ") t.text]
    exact ih a (b ++ " " ++ t.text)

theorem joinTexts_eq_accText (rest : List Segment) : ∀ (s : Segment),
    joinTexts (s :: rest) = accText s.text rest := by
  induction rest with
  | nil => intro s; rfl
  | cons t ts ih =>
    intro s
    have h1 : joinTexts (s :: t :: ts) = s.text ++ " " ++ joinTexts (t :: ts) := by
      unfold joinTexts
      simp only [List.map_cons]
      exact joinStrings_cons_cons _ _ _
    rw [h1, ih t]
    exact (accText_append_left ts (s.text ++ " ") t.text).symm

theorem foldsBounded_concat (cs : Nat) (l : List Segment) : ∀ (a : String) (x : Segment),
    foldsBounded cs a l = true → (accText a l).length + x.text.length ≤ cs →
    foldsBounded cs a (l ++ [x]) = true := by
  induction l with
  | nil =>
    intro a x _ hle
    simp only [List.nil_append, foldsBounded, Bool.and_eq_true, decide_eq_true_eq]
    exact ⟨hle, trivial⟩
  | cons s rest ih =>
    intro a x hfb hle
    simp only [foldsBounded, Bool.and_eq_true, decide_eq_true_eq] at hfb
    simp only [List.cons_append, foldsBounded, Bool.and_eq_true, decide_eq_true_eq]
    exact ⟨hfb.1, ih (a ++ " " ++ s.text) x hfb.2 hle⟩

theorem startOfRun_concat (r : List Segment) (s : Segment) :
    startOfRun (r ++ [s]) =
      if optFalsy (startOfRun r) then some (tsStart s.timestamp) else startOfRun r := by
  unfold startOfRun
  rw [List.foldl_append]
  rfl

theorem startOfRun_single (s : Segment) :
    startOfRun [s] = some (tsStart s.timestamp) := rfl

end TeacherRag

namespace TeacherRag

theorem stepSeg_flush (cs : Nat) (st : ChunkState) (seg : Segment)
    (h : st.current_text ≠ "" ∧ st.current_text.length + seg.text.length > cs) :
    stepSeg cs st seg =
      { chunks := st.chunks ++
          [{ text := st.current_text, timestamp_start := st.start_timestamp,
             timestamp_end := st.end_timestamp }],
        current_text := seg.text,
        start_timestamp := some (tsStart seg.timestamp),
        end_timestamp := some (tsEnd seg.timestamp) } := by
  unfold stepSeg
  rw [if_pos h]
  simp [optFalsy]

theorem stepSeg_fold (cs : Nat) (st : ChunkState) (seg : Segment)
    (h : ¬(st.current_text ≠ "" ∧ st.current_text.length + seg.text.length > cs)) :
    stepSeg cs st seg =
      { chunks := st.chunks,
        current_text :=
          if st.current_text ≠ "" then st.current_text ++ " " ++ seg.text else seg.text,
        start_timestamp :=
          if optFalsy st.start_timestamp then some (tsStart seg.timestamp)
          else st.start_timestamp,
        end_timestamp := some (tsEnd seg.timestamp) } := by
  unfold stepSeg
  rw [if_neg h]

/-- The correspondence invariant between the source chunker state and the
instrumented run-recording state. -/
structure ChunkInv (cs : Nat) (st : ChunkState) (runs : List (List Segment))
    (cur : List Segment) (curText : String) : Prop where
  text_eq : st.current_text = curText
  join_eq : curText = joinTexts cur
  chunks_eq : st.chunks = runs.map mkChunk
  start_eq : st.start_timestamp = startOfRun cur
  end_eq : cur ≠ [] → st.end_timestamp = endOfRun cur
  runs_ne : ∀ r ∈ runs, r ≠ []
  runs_ok : ∀ r ∈ runs, runOkB cs r = true
  pend_ok : cur = [] ∨ ∃ s rest, cur = s :: rest ∧ foldsBounded cs s.text rest = true
  nec : flushNec cs (runs ++ [cur])
  follows : runs ≠ [] → cur ≠ []
  cur_ne : AllNE cur

theorem chunkInv_init (cs : Nat) :
    ChunkInv cs
      { chunks := [], current_text := "", start_timestamp := none, end_timestamp := none }
      [] [] ("") where
  text_eq := rfl
  join_eq := rfl
  chunks_eq := rfl
  start_eq := rfl
  end_eq := fun h => absurd rfl h
  runs_ne := by simp
  runs_ok := by simp
  pend_ok := Or.inl rfl
  nec := List.chain'_singleton _
  follows := fun h => absurd rfl h
  cur_ne := by simp [AllNE]

theorem runsLoop_inv (cs : Nat) : ∀ (segs : List Segment) (st : ChunkState)
    (runs : List (List Segment)) (cur : List Segment) (curText : String),
    AllNE segs → ChunkInv cs st runs cur curText →
    ChunkInv cs (chunksLoop cs st segs)
      (runsLoop cs runs cur curText segs).1
      (runsLoop cs runs cur curText segs).2.1
      (runsLoop cs runs cur curText segs).2.2 := by
  intro segs
  induction segs with
  | nil => intro st runs cur curText _ hI; exact hI
  | cons seg rest ih =>
    intro st runs cur curText hall hI
    have hseg : seg.text ≠ "" := hall seg (by simp)
    have hrest : AllNE rest := fun s hs => hall s (by simp [hs])
    by_cases hg : curText ≠ "" ∧ curText.length + seg.text.length > cs
    · -- flush branch
      have hcurne : cur ≠ [] := by
        intro hc
        apply hg.1
        rw [hI.join_eq, hc]
        rfl
      have hg' : st.current_text ≠ "" ∧ st.current_text.length + seg.text.length > cs := by
        rw [hI.text_eq]; exact hg
      have hrl : runsLoop cs runs cur curText (seg :: rest) =
          runsLoop cs (runs ++ [cur]) [seg] seg.text rest := by
        simp only [runsLoop, if_pos hg]
      have hcl : chunksLoop cs st (seg :: rest) =
          chunksLoop cs (stepSeg cs st seg) rest := rfl
      rw [hrl, hcl]
      apply ih _ _ _ _ hrest
      rw [stepSeg_flush cs st seg hg']
      refine { text_eq := ?_, join_eq := ?_, chunks_eq := ?_, start_eq := ?_, end_eq := ?_,
               runs_ne := ?_, runs_ok := ?_, pend_ok := ?_, nec := ?_, follows := ?_,
               cur_ne := ?_ }
      · rfl
      · simp [joinTexts, joinStrings]
      · rw [hI.chunks_eq, List.map_append, List.map_cons, List.map_nil]
        rw [hI.text_eq, hI.join_eq, hI.start_eq, hI.end_eq hcurne]
        rfl
      · rw [startOfRun_single]
      · intro _; simp [endOfRun]
      · intro r hr
        rcases List.mem_append.mp hr with hr1 | hr2
        · exact hI.runs_ne r hr1
        · simp at hr2; subst hr2; exact hcurne
      · intro r hr
        rcases List.mem_append.mp hr with hr1 | hr2
        · exact hI.runs_ok r hr1
        · simp at hr2
          subst hr2
          rcases hI.pend_ok with hc | ⟨s, sr, hcur, hfb⟩
          · exact absurd hc hcurne
          · rw [hcur]
            simp [runOkB, hfb]
      · right
        exact ⟨seg, [], rfl, rfl⟩
      · rw [flushNec, List.chain'_append]
        refine ⟨hI.nec, List.chain'_singleton _, ?_⟩
        intro x hx y hy
        rw [List.getLast?_concat] at hx
        simp at hx hy
        subst hx
        subst hy
        show (joinTexts cur).length + (headText [seg]).length > cs
        have hht : headText [seg] = seg.text := rfl
        rw [hht, ← hI.join_eq]
        exact hg.2
      · intro _; simp
      · intro s hs
        simp at hs
        subst hs
        exact hseg
    · -- fold branch
      have hg' : ¬(st.current_text ≠ "" ∧ st.current_text.length + seg.text.length > cs) := by
        rw [hI.text_eq]; exact hg
      have hrl : runsLoop cs runs cur curText (seg :: rest) =
          runsLoop cs runs (cur ++ [seg])
            (if curText ≠ "" then curText ++ " " ++ seg.text else seg.text) rest := by
        simp only [runsLoop, if_neg hg]
      have hcl : chunksLoop cs st (seg :: rest) =
          chunksLoop cs (stepSeg cs st seg) rest := rfl
      rw [hrl, hcl]
      apply ih _ _ _ _ hrest
      rw [stepSeg_fold cs st seg hg']
      have hjoin : (if curText ≠ "" then curText ++ " " ++ seg.text else seg.text) =
          joinTexts (cur ++ [seg]) := by
        by_cases hc : cur = []
        · subst hc
          have hn : curText = "" := by rw [hI.join_eq]; rfl
          rw [if_neg (by simp [hn])]
          simp [joinTexts, joinStrings]
        · have hne : curText ≠ "" := by
            rw [hI.join_eq]
            exact joinTexts_ne_empty cur hc hI.cur_ne
          rw [if_pos hne, joinTexts_concat cur seg hc, hI.join_eq]
      refine { text_eq := ?_, join_eq := ?_, chunks_eq := ?_, start_eq := ?_, end_eq := ?_,
               runs_ne := ?_, runs_ok := ?_, pend_ok := ?_, nec := ?_, follows := ?_,
               cur_ne := ?_ }
      · rw [hI.text_eq]
      · exact hjoin
      · exact hI.chunks_eq
      · rw [startOfRun_concat, hI.start_eq]
      · intro _
        simp [endOfRun, List.getLast?_concat]
      · exact hI.runs_ne
      · exact hI.runs_ok
      · right
        rcases hI.pend_ok with hc | ⟨s, sr, hcur, hfb⟩
        · subst hc
          exact ⟨seg, [], rfl, rfl⟩
        · refine ⟨s, sr ++ [seg], by rw [hcur]; rfl, ?_⟩
          apply foldsBounded_concat cs sr s.text seg hfb
          have hacc : accText s.text sr = curText := by
            rw [hI.join_eq, hcur, joinTexts_eq_accText]
          rw [hacc]
          by_cases hne : curText ≠ ""
          · rcases Nat.lt_or_ge cs (curText.length + seg.text.length) with hlt | hge
            · exact absurd ⟨hne, hlt⟩ hg
            · exact hge
          · simp at hne
            have hcnil : cur = [] := by
              by_contra hcc
              exact joinTexts_ne_empty cur hcc hI.cur_ne (by rw [← hI.join_eq]; exact hne)
            rw [hcnil] at hcur
            exact absurd hcur (by simp)
      · by_cases hc : cur = []
        · have hruns : runs = [] := by
            by_contra hr
            exact absurd hc (by intro h2; exact (hI.follows hr) h2)
          rw [hruns, hc]
          simp only [List.nil_append]
          exact List.chain'_singleton _
        · rcases List.chain'_append.mp hI.nec with ⟨h1, _, h3⟩
          rw [flushNec, List.chain'_append]
          refine ⟨h1, List.chain'_singleton _, ?_⟩
          intro x hx y hy
          simp at hy
          subst hy
          have hhead : headText (cur ++ [seg]) = headText cur := by
            rcases cur with _ | ⟨c0, ct⟩
            · exact absurd rfl hc
            · rfl
          show (joinTexts x).length + (headText (cur ++ [seg])).length > cs
          rw [hhead]
          exact h3 x hx cur (by simp)
      · intro _; simp
      · intro s hs
        rcases List.mem_append.mp hs with hs1 | hs2
        · exact hI.cur_ne s hs1
        · simp at hs2; subst hs2; exact hseg

end TeacherRag

namespace TeacherRag

theorem runsLoop_flatten (cs : Nat) : ∀ (segs : List Segment)
    (runs : List (List Segment)) (cur : List Segment) (curText : String),
    (runsLoop cs runs cur curText segs).1.flatten ++ (runsLoop cs runs cur curText segs).2.1 =
      runs.flatten ++ cur ++ segs := by
  intro segs
  induction segs with
  | nil => intro runs cur curText; simp [runsLoop]
  | cons seg rest ih =>
    intro runs cur curText
    by_cases hg : curText ≠ "" ∧ curText.length + seg.text.length > cs
    · simp only [runsLoop, if_pos hg]
      rw [ih]
      simp [List.append_assoc]
    · simp only [runsLoop, if_neg hg]
      rw [ih]
      simp [List.append_assoc]

/-- Master correspondence: on segment sequences with non-empty texts, the
chunks of create_chunks_from_segments are exactly the images of the
recorded runs; the runs are non-empty, partition the input in order, obey
the oversized-singleton-or-bounded shape, and consecutive boundaries are
forced by a strict threshold overflow. -/
theorem chunks_runs_spec (segs : List Segment) (cs : Nat) (h : AllNE segs) :
    create_chunks_from_segments segs cs = (runsOf segs cs).map mkChunk
  ∧ (∀ r ∈ runsOf segs cs, r ≠ [])
  ∧ (∀ r ∈ runsOf segs cs, runOkB cs r = true)
  ∧ flushNec cs (runsOf segs cs)
  ∧ (runsOf segs cs).flatten = segs := by
  have hI := runsLoop_inv cs segs
    { chunks := [], current_text := "", start_timestamp := none, end_timestamp := none }
    [] [] ("") h (chunkInv_init cs)
  have hflat := runsLoop_flatten cs segs [] [] ("")
  simp only [List.flatten_nil, List.nil_append] at hflat
  set P := runsLoop cs [] [] ("") segs with hP
  set fin := chunksLoop cs
    { chunks := [], current_text := "", start_timestamp := none, end_timestamp := none }
    segs with hfin
  by_cases hne : P.2.2 ≠ ""
  · have hcurne : P.2.1 ≠ [] := by
      intro hc
      apply hne
      rw [hI.join_eq, hc]
      rfl
    have hrof : runsOf segs cs = P.1 ++ [P.2.1] := by
      simp only [runsOf, ← hP]
      rw [if_pos hne]
    have hfintext : fin.current_text ≠ "" := by rw [hI.text_eq]; exact hne
    refine ⟨?_, ?_, ?_, ?_, ?_⟩
    · show create_chunks_from_segments segs cs = _
      simp only [create_chunks_from_segments, ← hfin]
      rw [if_pos hfintext, hrof, hI.chunks_eq, List.map_append, List.map_cons, List.map_nil]
      rw [hI.text_eq, hI.join_eq, hI.start_eq, hI.end_eq hcurne]
      rfl
    · intro r hr
      rw [hrof] at hr
      rcases List.mem_append.mp hr with h1 | h2
      · exact hI.runs_ne r h1
      · simp at h2; subst h2; exact hcurne
    · intro r hr
      rw [hrof] at hr
      rcases List.mem_append.mp hr with h1 | h2
      · exact hI.runs_ok r h1
      · simp at h2
        subst h2
        rcases hI.pend_ok with hc | ⟨s, sr, hcur, hfb⟩
        · exact absurd hc hcurne
        · rw [hcur]; simp [runOkB, hfb]
    · rw [hrof]; exact hI.nec
    · rw [hrof, List.flatten_append]
      simpa using hflat
  · simp at hne
    have hcurnil : P.2.1 = [] := by
      by_contra hc
      exact joinTexts_ne_empty P.2.1 hc hI.cur_ne (by rw [← hI.join_eq]; exact hne)
    have hrof : runsOf segs cs = P.1 := by
      simp only [runsOf, ← hP]
      rw [if_neg (by simp [hne])]
    have hfintext : ¬fin.current_text ≠ "" := by
      rw [hI.text_eq]; simp [hne]
    refine ⟨?_, ?_, ?_, ?_, ?_⟩
    · show create_chunks_from_segments segs cs = _
      simp only [create_chunks_from_segments, ← hfin]
      rw [if_neg hfintext, hrof]
      exact hI.chunks_eq
    · intro r hr; rw [hrof] at hr; exact hI.runs_ne r hr
    · intro r hr; rw [hrof] at hr; exact hI.runs_ok r hr
    · rw [hrof]
      have hruns : P.1 = [] ∨ P.2.1 ≠ [] := by
        by_cases hq : P.1 = []
        · exact Or.inl hq
        · exact Or.inr (hI.follows hq)
      rcases hruns with hq | hq
      · rw [hq]; exact List.chain'_nil
      · exact absurd hcurnil hq
    · rw [hrof, ← hflat, hcurnil, List.append_nil]

end TeacherRag

namespace TeacherRag

theorem startOfRun_foldl_stay (r : List Segment) : ∀ (a : Option String), optFalsy a = false →
    r.foldl (fun acc s => if optFalsy acc then some (tsStart s.timestamp) else acc) a = a := by
  induction r with
  | nil => intro a _; rfl
  | cons s rest ih =>
    intro a ha
    simp only [List.foldl_cons, ha, Bool.false_eq_true, if_false]
    exact ih a ha

theorem startOfRun_foldl_falsy (r : List Segment) : ∀ (a : Option String), optFalsy a = true →
    r.foldl (fun acc s => if optFalsy acc then some (tsStart s.timestamp) else acc) a =
      (match r.find? (fun s => !(tsStart s.timestamp == "")) with
       | some s => some (tsStart s.timestamp)
       | none => if r.isEmpty then a else some ("")) := by
  induction r with
  | nil => intro a _; rfl
  | cons s rest ih =>
    intro a ha
    simp only [List.foldl_cons, ha, if_true]
    by_cases ht : tsStart s.timestamp == ""
    · have hfind : (s :: rest).find? (fun s => !(tsStart s.timestamp == "")) =
          rest.find? (fun s => !(tsStart s.timestamp == "")) := by
        rw [List.find?_cons_of_neg]
        simp [ht]
      rw [hfind]
      have hfalsy : optFalsy (some (tsStart s.timestamp)) = true := by
        simp [optFalsy, ht]
      rw [ih (some (tsStart s.timestamp)) hfalsy]
      have hts : tsStart s.timestamp = "" := eq_of_beq ht
      rcases hrest : rest.find? (fun s => !(tsStart s.timestamp == "")) with _ | s2 <;>
        simp only [hrest]
      · rcases rest with _ | ⟨r0, rt⟩
        · simp [hts]
        · simp
    · have hfind : (s :: rest).find? (fun s => !(tsStart s.timestamp == "")) = some s := by
        rw [List.find?_cons_of_pos]
        simp [ht]
      rw [hfind]
      have hfalsy : optFalsy (some (tsStart s.timestamp)) = false := by
        simp only [optFalsy]
        simpa using ht
      rw [startOfRun_foldl_stay rest (some (tsStart s.timestamp)) hfalsy]

theorem startOfRun_eq (r : List Segment) :
    startOfRun r =
      (match r.find? (fun s => !(tsStart s.timestamp == "")) with
       | some s => some (tsStart s.timestamp)
       | none => if r.isEmpty then none else some ("")) := by
  unfold startOfRun
  exact startOfRun_foldl_falsy r none rfl

theorem joinStrings_flatten (rs : List (List String)) (h1 : ∀ l ∈ rs, l ≠ [])
    (h2 : ∀ l ∈ rs, ∀ x ∈ l, x ≠ "") :
    joinStrings (rs.map joinStrings) = joinStrings rs.flatten := by
  induction rs with
  | nil => rfl
  | cons l rs ih =>
    rcases rs with _ | ⟨r0, rt⟩
    · simp [joinStrings]
    · have hl : l ≠ [] := h1 l (by simp)
      have hflat : (r0 :: rt).flatten ≠ [] := by
        have hr0 : r0 ≠ [] := h1 r0 (by simp)
        simp only [List.flatten_cons]
        intro hcontra
        exact hr0 (List.append_eq_nil.mp hcontra).1
      rw [List.map_cons, List.flatten_cons]
      have hmapne : (r0 :: rt).map joinStrings ≠ [] := by simp
      rcases hmap : (r0 :: rt).map joinStrings with _ | ⟨m0, mt⟩
      · exact absurd hmap hmapne
      · rw [joinStrings_cons_cons, ← hmap]
        rw [ih (fun x hx => h1 x (by simp [hx])) (fun x hx => h2 x (by simp [hx]))]
        rw [joinStrings_append l (r0 :: rt).flatten hl hflat]

end TeacherRag

namespace TeacherRag

/-- Claim C1 (amended): for every threshold and every segment sequence whose
texts are non-empty (and whose timestamps contain the separator, so the
Python loop runs to completion), the chunks' texts space-joined in order
equal the space-joined texts of all input segments in input order, and the
chunks are the images of a partition of the segment sequence into
contiguous runs, each covered exactly once, order preserved. -/
theorem claim_C1 (segs : List Segment) (chunk_size : Nat)
    (htext : AllNE segs) (harrow : AllArrow segs) :
    joinStrings ((create_chunks_from_segments segs chunk_size).map (fun c => c.text)) =
      joinStrings (segs.map (fun s => s.text))
  ∧ create_chunks_from_segments segs chunk_size = (runsOf segs chunk_size).map mkChunk
  ∧ (runsOf segs chunk_size).flatten = segs
  ∧ ∀ r ∈ runsOf segs chunk_size, r ≠ [] := by
  obtain ⟨hmap, hne, _, _, hflat⟩ := chunks_runs_spec segs chunk_size htext
  refine ⟨?_, hmap, hflat, hne⟩
  rw [hmap, List.map_map]
  have htexts : ((runsOf segs chunk_size).map (fun r => (mkChunk r).text)) =
      ((runsOf segs chunk_size).map (fun r => r.map (fun s => s.text))).map joinStrings := by
    rw [List.map_map]
    rfl
  have hcomp : (fun c => c.text) ∘ mkChunk = fun r => (mkChunk r).text := rfl
  rw [hcomp, htexts]
  rw [joinStrings_flatten]
  · congr 1
    rw [← List.map_flatten, hflat]
  · intro l hl
    obtain ⟨r, hr, rfl⟩ := List.mem_map.mp hl
    simp only [ne_eq, List.map_eq_nil_iff]
    exact hne r hr
  · intro l hl x hx
    obtain ⟨r, hr, rfl⟩ := List.mem_map.mp hl
    obtain ⟨s, hs, rfl⟩ := List.mem_map.mp hx
    apply htext
    rw [← hflat]
    exact List.mem_flatten.mpr ⟨r, hr, hs⟩

/-- Claim C1 as stated is false: with an empty-text segment at the start of
a chunk, the source appends the next text to a falsy accumulator without a
separating space, so the space-joined chunk texts lose the empty segment's
contribution to the space-joined segment texts. -/
theorem claim_C1_counterexample :
    ¬ (joinStrings ((create_chunks_from_segments
          [{ timestamp := "a --> b", text := "" }, { timestamp := "b --> c", text := "x" }]
          1000).map (fun c => c.text)) =
        joinStrings (([{ timestamp := "a --> b", text := "" },
          { timestamp := "b --> c", text := "x" }] : List Segment).map (fun s => s.text))) := by
  decide

/-- Witness for claim C1 at a concrete run that flushes once. -/
theorem claim_C1_witness :
    AllNE [{ timestamp := "00:00 --> 00:01", text := "hello" },
           { timestamp := "00:01 --> 00:02", text := "world" }]
  ∧ AllArrow [{ timestamp := "00:00 --> 00:01", text := "hello" },
              { timestamp := "00:01 --> 00:02", text := "world" }]
  ∧ (joinStrings ((create_chunks_from_segments
        [{ timestamp := "00:00 --> 00:01", text := "hello" },
         { timestamp := "00:01 --> 00:02", text := "world" }] 8).map (fun c => c.text)) =
      joinStrings (([{ timestamp := "00:00 --> 00:01", text := "hello" },
        { timestamp := "00:01 --> 00:02", text := "world" }] : List Segment).map
          (fun s => s.text))
    ∧ create_chunks_from_segments
        [{ timestamp := "00:00 --> 00:01", text := "hello" },
         { timestamp := "00:01 --> 00:02", text := "world" }] 8 =
        (runsOf [{ timestamp := "00:00 --> 00:01", text := "hello" },
          { timestamp := "00:01 --> 00:02", text := "world" }] 8).map mkChunk
    ∧ (runsOf [{ timestamp := "00:00 --> 00:01", text := "hello" },
        { timestamp := "00:01 --> 00:02", text := "world" }] 8).flatten =
        [{ timestamp := "00:00 --> 00:01", text := "hello" },
         { timestamp := "00:01 --> 00:02", text := "world" }]
    ∧ ∀ r ∈ runsOf [{ timestamp := "00:00 --> 00:01", text := "hello" },
        { timestamp := "00:01 --> 00:02", text := "world" }] 8, r ≠ []) :=
  ⟨by decide, by decide,
    claim_C1 [{ timestamp := "00:00 --> 00:01", text := "hello" },
      { timestamp := "00:01 --> 00:02", text := "world" }] 8 (by decide) (by decide)⟩

end TeacherRag

namespace TeacherRag

/-- Claim C2 (amended): for thresholds T and segment sequences with
non-empty texts (and separator-bearing timestamps), the assembler flushes
exactly on a strict overflow: every produced run is a single segment or
every fold after its first passed the non-strict check
len(current) + len(next) <= T (so a segment reaching exactly T folds in),
and every boundary between consecutive runs was forced by the strict
check len(closed chunk) + len(next segment) > T; the chunks are the
images of these runs. -/
theorem claim_C2 (segs : List Segment) (chunk_size : Nat)
    (htext : AllNE segs) (harrow : AllArrow segs) :
    (∀ r ∈ runsOf segs chunk_size, runOkB chunk_size r = true)
  ∧ flushNec chunk_size (runsOf segs chunk_size)
  ∧ create_chunks_from_segments segs chunk_size = (runsOf segs chunk_size).map mkChunk
  ∧ (runsOf segs chunk_size).flatten = segs := by
  obtain ⟨hmap, _, hok, hnec, hflat⟩ := chunks_runs_spec segs chunk_size htext
  exact ⟨hok, hnec, hmap, hflat⟩

/-- Claim C2 as stated is false: with an empty-text segment the accumulator
stays falsy, so the next fold bypasses the flush check entirely; at
threshold 1 the run below folds a 3-character text after the check value
0 + 3 > 1 was already violated, and the produced chunk is neither a
single segment nor check-bounded. -/
theorem claim_C2_counterexample :
    runsOf [{ timestamp := "a --> b", text := "" },
            { timestamp := "b --> c", text := "abc" }] 1 =
      [[{ timestamp := "a --> b", text := "" }, { timestamp := "b --> c", text := "abc" }]]
  ∧ create_chunks_from_segments [{ timestamp := "a --> b", text := "" },
      { timestamp := "b --> c", text := "abc" }] 1 =
      [{ text := "abc", timestamp_start := some ("a"), timestamp_end := some ("c") }]
  ∧ ¬ (∀ r ∈ runsOf [{ timestamp := "a --> b", text := "" },
        { timestamp := "b --> c", text := "abc" }] 1, runOkB 1 r = true) := by
  refine ⟨by decide, by decide, ?_⟩
  decide

/-- Witness for claim C2: two segments whose second text reaches exactly
the threshold is folded in (boundary behaviour of the strict check). -/
theorem claim_C2_witness :
    AllNE [{ timestamp := "00:00 --> 00:01", text := "hello" },
           { timestamp := "00:01 --> 00:02", text := "world" }]
  ∧ AllArrow [{ timestamp := "00:00 --> 00:01", text := "hello" },
              { timestamp := "00:01 --> 00:02", text := "world" }]
  ∧ ((∀ r ∈ runsOf [{ timestamp := "00:00 --> 00:01", text := "hello" },
        { timestamp := "00:01 --> 00:02", text := "world" }] 10, runOkB 10 r = true)
    ∧ flushNec 10 (runsOf [{ timestamp := "00:00 --> 00:01", text := "hello" },
        { timestamp := "00:01 --> 00:02", text := "world" }] 10)
    ∧ create_chunks_from_segments [{ timestamp := "00:00 --> 00:01", text := "hello" },
        { timestamp := "00:01 --> 00:02", text := "world" }] 10 =
        (runsOf [{ timestamp := "00:00 --> 00:01", text := "hello" },
          { timestamp := "00:01 --> 00:02", text := "world" }] 10).map mkChunk
    ∧ (runsOf [{ timestamp := "00:00 --> 00:01", text := "hello" },
        { timestamp := "00:01 --> 00:02", text := "world" }] 10).flatten =
        [{ timestamp := "00:00 --> 00:01", text := "hello" },
         { timestamp := "00:01 --> 00:02", text := "world" }])
  ∧ runsOf [{ timestamp := "00:00 --> 00:01", text := "hello" },
      { timestamp := "00:01 --> 00:02", text := "world" }] 10 =
      [[{ timestamp := "00:00 --> 00:01", text := "hello" },
        { timestamp := "00:01 --> 00:02", text := "world" }]] :=
  ⟨by decide, by decide,
    claim_C2 [{ timestamp := "00:00 --> 00:01", text := "hello" },
      { timestamp := "00:01 --> 00:02", text := "world" }] 10 (by decide) (by decide),
    by decide⟩

/-- Claim C3 (amended): for segment sequences with non-empty texts and
separator-bearing timestamps, each chunk's end timestamp is the stripped
end of the last segment folded into it (updated on every fold), and each
chunk's start timestamp is the stripped start of the first folded segment
whose stripped start is non-empty (Python truthiness treats an empty start
as unset; if every folded start strips to empty the chunk keeps the empty
string). -/
theorem claim_C3 (segs : List Segment) (chunk_size : Nat)
    (htext : AllNE segs) (harrow : AllArrow segs) :
    create_chunks_from_segments segs chunk_size = (runsOf segs chunk_size).map mkChunk
  ∧ (runsOf segs chunk_size).flatten = segs
  ∧ ∀ r ∈ runsOf segs chunk_size, r ≠ []
      ∧ (mkChunk r).timestamp_end = (r.getLast?).map (fun s => tsEnd s.timestamp)
      ∧ (mkChunk r).timestamp_start =
          (match r.find? (fun s => !(tsStart s.timestamp == "")) with
           | some s => some (tsStart s.timestamp)
           | none => if r.isEmpty then none else some ("")) := by
  obtain ⟨hmap, hne, _, _, hflat⟩ := chunks_runs_spec segs chunk_size htext
  refine ⟨hmap, hflat, ?_⟩
  intro r hr
  exact ⟨hne r hr, rfl, startOfRun_eq r⟩

/-- Claim C3 as stated is false: a chunk whose first folded segment has an
empty (stripped) start timestamp takes its start from a later segment, not
from the first folded segment. -/
theorem claim_C3_counterexample :
    create_chunks_from_segments [{ timestamp := "--> 00:10", text := "x" },
        { timestamp := "00:20 --> 00:30", text := "y" }] 1000 =
      [{ text := "x y", timestamp_start := some ("00:20"), timestamp_end := some ("00:30") }]
  ∧ runsOf [{ timestamp := "--> 00:10", text := "x" },
      { timestamp := "00:20 --> 00:30", text := "y" }] 1000 =
      [[{ timestamp := "--> 00:10", text := "x" },
        { timestamp := "00:20 --> 00:30", text := "y" }]]
  ∧ tsStart ("--> 00:10") = ""
  ∧ some ("00:20") ≠ some (tsStart ("--> 00:10")) := by
  refine ⟨by decide, by decide, by decide, by decide⟩

/-- Witness for claim C3 at a concrete two-chunk run. -/
theorem claim_C3_witness :
    AllNE [{ timestamp := "00:00 --> 00:01", text := "hello" },
           { timestamp := "00:01 --> 00:02", text := "world" }]
  ∧ AllArrow [{ timestamp := "00:00 --> 00:01", text := "hello" },
              { timestamp := "00:01 --> 00:02", text := "world" }]
  ∧ (create_chunks_from_segments [{ timestamp := "00:00 --> 00:01", text := "hello" },
        { timestamp := "00:01 --> 00:02", text := "world" }] 8 =
        (runsOf [{ timestamp := "00:00 --> 00:01", text := "hello" },
          { timestamp := "00:01 --> 00:02", text := "world" }] 8).map mkChunk
    ∧ (runsOf [{ timestamp := "00:00 --> 00:01", text := "hello" },
        { timestamp := "00:01 --> 00:02", text := "world" }] 8).flatten =
        [{ timestamp := "00:00 --> 00:01", text := "hello" },
         { timestamp := "00:01 --> 00:02", text := "world" }]
    ∧ ∀ r ∈ runsOf [{ timestamp := "00:00 --> 00:01", text := "hello" },
        { timestamp := "00:01 --> 00:02", text := "world" }] 8, r ≠ []
        ∧ (mkChunk r).timestamp_end = (r.getLast?).map (fun s => tsEnd s.timestamp)
        ∧ (mkChunk r).timestamp_start =
            (match r.find? (fun s => !(tsStart s.timestamp == "")) with
             | some s => some (tsStart s.timestamp)
             | none => if r.isEmpty then none else some (""))) :=
  ⟨by decide, by decide,
    claim_C3 [{ timestamp := "00:00 --> 00:01", text := "hello" },
      { timestamp := "00:01 --> 00:02", text := "world" }] 8 (by decide) (by decide)⟩

end TeacherRag

namespace TeacherRag

/-- A well-formed cue block for the parser correctness statement: a header
line carrying the arrow token, its text lines, and ignored lines following
the blank terminator before the next cue. -/
structure Cue where
  header : String
  textLines : List String
  junkAfter : List String
deriving DecidableEq

/-- The lines a cue block contributes to the input: header, text lines, a
blank terminator, then ignored junk lines. -/
def renderCue (c : Cue) : List String :=
  c.header :: (c.textLines ++ [""] ++ c.junkAfter)

/-- Well-formedness of a cue block: the header contains the arrow token,
each text line strips to a non-empty arrow-free string, and the trailing
junk lines are arrow-free. -/
def CueWF (c : Cue) : Prop :=
  hasArrow (pyStrip c.header) = true
  ∧ (∀ l ∈ c.textLines, pyStrip l ≠ "" ∧ hasArrow (pyStrip l) = false)
  ∧ (∀ l ∈ c.junkAfter, hasArrow (pyStrip l) = false)

instance decCueWF (c : Cue) : Decidable (CueWF c) :=
  inferInstanceAs (Decidable (_ ∧ _ ∧ _))

theorem parseLoop_skip (junk : List String) (rest : List String)
    (h : ∀ l ∈ junk, hasArrow (pyStrip l) = false) :
    parseLoop (junk ++ rest) = parseLoop rest := by
  induction junk with
  | nil => rfl
  | cons l ls ih =>
    have hl : hasArrow (pyStrip l) = false := h l (by simp)
    rw [List.cons_append]
    rw [parseLoop]
    rw [if_neg (by simp [hl])]
    exact ih (fun x hx => h x (by simp [hx]))

theorem collectText_break (txts : List String) (rest : List String)
    (htx : ∀ l ∈ txts, pyStrip l ≠ "" ∧ hasArrow (pyStrip l) = false) :
    collectText (txts ++ ("" :: rest)) = (txts.map pyStrip, "" :: rest) := by
  induction txts with
  | nil =>
    rw [List.nil_append]
    rw [collectText]
    rw [if_pos (Or.inl (by decide))]
    rfl
  | cons l ls ih =>
    have hl := htx l (by simp)
    rw [List.cons_append]
    rw [collectText]
    rw [if_neg (by simp [hl.1, hl.2])]
    rw [ih (fun x hx => htx x (by simp [hx]))]
    rfl

theorem parseLoop_cues : ∀ (cues : List Cue), (∀ c ∈ cues, CueWF c) →
    parseLoop ((cues.map renderCue).flatten) =
      cues.filterMap (fun c =>
        if c.textLines.isEmpty then none
        else some { timestamp := pyStrip c.header,
                    text := joinStrings (c.textLines.map pyStrip) }) := by
  intro cues
  induction cues with
  | nil => intro _; simp [parseLoop]
  | cons c cs ih =>
    intro hwf
    have hc : CueWF c := hwf c (by simp)
    obtain ⟨hhead, htxt, hjunk⟩ := hc
    have hrest : ∀ x ∈ cs, CueWF x := fun x hx => hwf x (by simp [hx])
    rw [List.map_cons, List.flatten_cons]
    have hshape : renderCue c ++ (cs.map renderCue).flatten =
        c.header :: (c.textLines ++
          ("" :: (c.junkAfter ++ (cs.map renderCue).flatten))) := by
      simp [renderCue, List.append_assoc]
    rw [hshape]
    rw [parseLoop]
    rw [if_pos hhead]
    rw [collectText_break c.textLines (c.junkAfter ++ (cs.map renderCue).flatten) htxt]
    have hskip : parseLoop ("" :: (c.junkAfter ++ (cs.map renderCue).flatten)) =
        parseLoop ((cs.map renderCue).flatten) := by
      have hjoin : ("" :: (c.junkAfter ++ (cs.map renderCue).flatten)) =
          (("" :: c.junkAfter) ++ (cs.map renderCue).flatten) := rfl
      rw [hjoin]
      apply parseLoop_skip
      intro x hx
      rcases List.mem_cons.mp hx with hx1 | hx2
      · subst hx1; decide
      · exact hjunk x hx2
    rw [hskip, ih hrest]
    by_cases hempty : c.textLines = []
    · simp [List.filterMap_cons, hempty]
    · simp [List.filterMap_cons, hempty]

/-- Claim C4: the parser splits the input into lines; a cue is an
arrow-bearing line followed by its text lines up to a blank line; for every
interleaving of ignored arrow-free lines and well-formed cue blocks, the
parser emits exactly one segment per cue with at least one text line, in
cue order, whose text is the space-join of the individually stripped text
lines; cues with no text lines emit nothing, and lines outside cues are
ignored. -/
theorem claim_C4 :
    (∀ content : String, parse_webvtt_content content =
        parseLoop ((splitNL content.data).map (fun l => String.mk l)))
  ∧ ∀ (junk : List String) (cues : List Cue),
      (∀ l ∈ junk, hasArrow (pyStrip l) = false) → (∀ c ∈ cues, CueWF c) →
      parseLoop (junk ++ (cues.map renderCue).flatten) =
        cues.filterMap (fun c =>
          if c.textLines.isEmpty then none
          else some { timestamp := pyStrip c.header,
                      text := joinStrings (c.textLines.map pyStrip) }) := by
  refine ⟨fun _ => rfl, ?_⟩
  intro junk cues hjunk hwf
  rw [parseLoop_skip junk _ hjunk]
  exact parseLoop_cues cues hwf

/-- Witness for claim C4: a header line, a two-line cue with trailing junk,
and an empty cue, parsed as exactly one segment. -/
theorem claim_C4_witness :
    (∀ l ∈ ["WEBVTT", ""], hasArrow (pyStrip l) = false)
  ∧ (∀ c ∈ [({ header := " 00:01 --> 00:02 ", textLines := [" hello ", "world"], junkAfter := ["3"] } : Cue),
      ({ header := "00:03 --> 00:04", textLines := [], junkAfter := [] } : Cue)], CueWF c)
  ∧ parseLoop (["WEBVTT", ""] ++
      (([({ header := " 00:01 --> 00:02 ", textLines := [" hello ", "world"], junkAfter := ["3"] } : Cue),
         ({ header := "00:03 --> 00:04", textLines := [], junkAfter := [] } : Cue)]).map
        renderCue).flatten) =
      ([({ header := " 00:01 --> 00:02 ", textLines := [" hello ", "world"], junkAfter := ["3"] } : Cue),
        ({ header := "00:03 --> 00:04", textLines := [], junkAfter := [] } : Cue)]).filterMap
        (fun c =>
          if c.textLines.isEmpty then none
          else some { timestamp := pyStrip c.header,
                      text := joinStrings (c.textLines.map pyStrip) }) :=
  ⟨by decide, by decide,
    claim_C4.2 ["WEBVTT", ""]
      [({ header := " 00:01 --> 00:02 ", textLines := [" hello ", "world"], junkAfter := ["3"] } : Cue),
       ({ header := "00:03 --> 00:04", textLines := [], junkAfter := [] } : Cue)]
      (by decide) (by decide)⟩

end TeacherRag

namespace TeacherRag

/-- Literal prefix test on character lists: each casual pattern of main.py
is an anchored alternation of literal words, so re.match succeeds exactly
when some alternative is a prefix of the (lowered, stripped) question. -/
def litMatch : List Char → List Char → Bool
  | [], _ => true
  | _ :: _, [] => false
  | p :: ps, q :: qs => p == q && litMatch ps qs

/-- re.match of one alternation pattern against a question string. -/
def pmatch (alts : List String) (q : String) : Bool :=
  alts.any (fun a => litMatch a.data q.data)

/-- Alternatives of casual_patterns[0] (main.py line 140). -/
def pat_greeting : List String :=
  ["hi", "hello", "hey", "good morning", "good afternoon", "good evening", "greetings"]

/-- Alternatives of casual_patterns[1] (main.py line 141). -/
def pat_smalltalk : List String :=
  ["how are you", "how\x27s it going", "what\x27s up", "wassup", "sup"]

/-- Alternatives of casual_patterns[2] (main.py line 142). -/
def pat_identity : List String := ["who are you", "what are you", "tell me about yourself"]

/-- Alternatives of casual_patterns[3] (main.py line 143). -/
def pat_thanks : List String := ["thank you", "thanks", "thank", "ty"]

/-- Alternatives of casual_patterns[4] (main.py line 144). -/
def pat_bye : List String := ["bye", "goodbye", "see you", "later"]

/-- Alternatives of casual_patterns[5] (main.py line 145). -/
def pat_ack : List String := ["ok", "okay", "alright", "cool", "nice"]

/-- casual_patterns (main.py lines 139-146), in source order. -/
def casual_patterns : List (List String) :=
  [pat_greeting, pat_smalltalk, pat_identity, pat_thanks, pat_bye, pat_ack]

/-- Python str.lower() for the ASCII range, as applied to questions
(main.py line 148); Char.toLower lowers exactly the basic latin letters. -/
def pyLower (s : String) : String := String.mk (s.data.map Char.toLower)

/-- question_lower = request.question.lower().strip() (main.py line 148). -/
def question_lower (question : String) : String := pyStrip (pyLower question)

/-- is_casual = any(re.match(p, question_lower) for p in casual_patterns)
(main.py line 151). -/
def is_casual (question : String) : Bool :=
  casual_patterns.any (fun p => pmatch p (question_lower question))

/-- casual_responses['greeting'] (main.py line 157). -/
def greeting_response : String :=
  "Hello! I\x27m your AI Tutor, here to help you learn from Andrew Ng\x27s lectures. Feel free to ask me anything about Generative AI, RAG, Fine-tuning, or any topic from the courses!"

/-- casual_responses['how_are_you'] (main.py line 158). -/
def how_are_you_response : String :=
  "I\x27m doing great, thank you for asking! I\x27m ready to help you understand any concepts from the lectures. What would you like to learn about today?"

/-- casual_responses['who_are_you'] (main.py line 159). -/
def who_are_you_response : String :=
  "I\x27m an AI-powered tutor based on Andrew Ng\x27s teaching style. I can help you understand concepts from the Generative AI courses by answering your questions using the lecture transcripts. How can I assist you?"

/-- casual_responses['thanks'] (main.py line 160). -/
def thanks_response : String :=
  "You\x27re very welcome! If you have more questions, I\x27m always here to help. Keep learning!"

/-- casual_responses['bye'] (main.py line 161). -/
def bye_response : String :=
  "Goodbye! Feel free to come back anytime you have questions. Happy learning!"

/-- casual_responses['ok'] (main.py line 162). -/
def ok_response : String :=
  "Great! If you have any questions about the course material, just ask away!"

/-- The response selection chain of generate_casual (main.py lines 166-177):
an if/elif cascade over patterns 0..4 with the ok response as fallback. -/
def select_response (q : String) : String :=
  if pmatch pat_greeting q then greeting_response
  else if pmatch pat_smalltalk q then how_are_you_response
  else if pmatch pat_identity q then who_are_you_response
  else if pmatch pat_thanks q then thanks_response
  else if pmatch pat_bye q then bye_response
  else ok_response

/-- The canned response of the category at a pattern index, in the order of
casual_patterns. -/
def respOfIdx (i : Nat) : String :=
  [greeting_response, how_are_you_response, who_are_you_response, thanks_response,
    bye_response, ok_response].getD i ok_response

/-- A string whose characters are all Python whitespace. -/
def WSOnly (s : String) : Prop := ∀ c ∈ s.data, isPySpace c = true

instance decWSOnly (s : String) : Decidable (WSOnly s) :=
  inferInstanceAs (Decidable (∀ c ∈ s.data, isPySpace c = true))

/-- The metadata mapping stored with a chunk, read back with .get defaults
at query time (main.py lines 204-210); absent keys are modelled as none. -/
structure ChromaMetadata where
  course : Option String
  lecture : Option String
  timestamp_start : Option String
  timestamp_end : Option String
deriving DecidableEq

/-- The per-source record of the sources event (main.py lines 205-211). -/
structure Source where
  course : String
  lecture : String
  timestamp_start : String
  timestamp_end : String
  text : String
deriving DecidableEq

/-- The excerpt rule of main.py line 210: truncate to the first 200
characters plus an ellipsis marker exactly when the text is longer than
200 characters. -/
def excerpt (doc : String) : String :=
  if doc.length > 200 then String.mk (doc.data.take 200) ++ "..." else doc

/-- Default metadata for an index miss (never reached when the store
returns aligned lists). -/
def defaultMetadata : ChromaMetadata := { course := none, lecture := none,
                                          timestamp_start := none, timestamp_end := none }

/-- Default source record. -/
def defaultSource : Source := { course := "", lecture := "", timestamp_start := "",
                                timestamp_end := "", text := "" }

/-- The sources list built in main.py lines 202-211: one record per
retrieved id, in the store's returned order, metadata read with defaults
and the text truncated by the excerpt rule. -/
def buildSources (ids : List String) (documents : List String)
    (metadatas : List ChromaMetadata) : List Source :=
  (List.range ids.length).map (fun i =>
    { course := ((metadatas.getD i defaultMetadata).course.getD ("Unknown")),
      lecture := ((metadatas.getD i defaultMetadata).lecture.getD ("Unknown")),
      timestamp_start :=
        ((metadatas.getD i defaultMetadata).timestamp_start.getD ("00:00:00.000")),
      timestamp_end :=
        ((metadatas.getD i defaultMetadata).timestamp_end.getD ("00:00:00.000")),
      text := excerpt (documents.getD i ("")) })

/-- One server-sent event of the /query stream (main.py lines 181-244); the
JSON envelope is abstracted to the event's type and payload. -/
inductive StreamEvent where
  | content (data : String)
  | sourcesEvent (data : List Source)
  | done
deriving DecidableEq

/-- Event classifiers. -/
def isContentEv : StreamEvent → Bool
  | StreamEvent.content _ => true
  | _ => false

def isSourcesEv : StreamEvent → Bool
  | StreamEvent.sourcesEvent _ => true
  | _ => false

def isDoneEv : StreamEvent → Bool
  | StreamEvent.done => true
  | _ => false

/-- The model deltas forwarded as content events (main.py lines 230-234):
chunk.choices[0].delta.content may be None, and the `if content:` guard
also drops empty strings (Python truthiness). -/
def fragments (deltas : List (Option String)) : List String :=
  deltas.filterMap (fun d =>
    match d with
    | none => none
    | some s => if s = "" then none else some s)

/-- closing_message (main.py line 237). -/
def closing_message : String :=
  "\n\n---\n\n*You can follow my lectures where I have discussed these topics in more detail. Here are the references:*\n\n"

/-- The retrieval-branch generator (main.py lines 214-244): forward each
truthy model fragment as a content event, then the fixed closing note as
one more content event, then one sources event, then the terminal done. -/
def generate (deltas : List (Option String)) (sources : List Source) : List StreamEvent :=
  ((fragments deltas).map StreamEvent.content) ++
    [StreamEvent.content closing_message, StreamEvent.sourcesEvent sources, StreamEvent.done]

/-- The casual-branch generator (main.py lines 179-184): one content event
per character of the selected canned response, then the terminal done. -/
def generate_casual (question : String) : List StreamEvent :=
  ((select_response (question_lower question)).data.map
      (fun c => StreamEvent.content (String.mk [c]))) ++ [StreamEvent.done]

/-- The result of the similarity query (main.py lines 190-197): aligned
lists of ids, documents and metadatas for the retrieved chunks. -/
structure QueryResult where
  ids : List String
  documents : List String
  metadatas : List ChromaMetadata
deriving DecidableEq

/-- Outcome of the model streaming call made inside the generator: either
the stream completes with its deltas, or it raises after yielding a prefix
of deltas. -/
inductive ModelOutcome where
  | completes (deltas : List (Option String))
  | failsAfter (deltas : List (Option String)) (msg : String)
deriving DecidableEq

/-- The HTTP-level result of POST /query: either a streaming response
(whose generator may abort with an uncaught exception after some events)
or a synchronous error response. -/
inductive HttpResponse where
  | streamResp (events : List StreamEvent) (abortedWith : Option String)
  | errorResp (status : Nat) (detail : String)
deriving DecidableEq

/-- One run of the /query endpoint with its observable effects. -/
structure EndpointRun where
  response : HttpResponse
  store_queried : Bool
  model_called : Bool
deriving DecidableEq

/-- query_lecture (main.py lines 131-250).  The try/except around the
handler body catches exceptions raised before the StreamingResponse is
returned (in particular a failing collection.query) and converts them to
HTTPException(500, str(e)); the generator body runs only after the handler
has returned, so an exception during model streaming is not caught by this
handler: the stream is simply cut off after the already-yielded content
events, with no sources and no done event and no 500 response. -/
def query_lecture (question : String) (store : Except String QueryResult)
    (model : ModelOutcome) : EndpointRun :=
  if is_casual question then
    { response := HttpResponse.streamResp (generate_casual question) none,
      store_queried := false, model_called := false }
  else
    match store with
    | Except.error e =>
      { response := HttpResponse.errorResp 500 e, store_queried := true,
        model_called := false }
    | Except.ok res =>
      match model with
      | ModelOutcome.failsAfter deltas e =>
        { response := HttpResponse.streamResp ((fragments deltas).map StreamEvent.content)
            (some e),
          store_queried := true, model_called := true }
      | ModelOutcome.completes deltas =>
        { response := HttpResponse.streamResp
            (generate deltas (buildSources res.ids res.documents res.metadatas)) none,
          store_queried := true, model_called := true }

end TeacherRag

namespace TeacherRag

theorem toNat_ofNat_valid (n : Nat) (h : n.isValidChar) : (Char.ofNat n).toNat = n := by
  unfold Char.ofNat
  rw [dif_pos h]
  rfl

theorem toLower_toLower (c : Char) : c.toLower.toLower = c.toLower := by
  unfold Char.toLower
  by_cases h : Char.toNat c ≥ 65 ∧ Char.toNat c ≤ 90
  · rw [if_pos h]
    have hv : (Char.ofNat (Char.toNat c + 32)).toNat = Char.toNat c + 32 :=
      toNat_ofNat_valid _ (Or.inl (by omega))
    rw [if_neg (by rw [hv]; omega)]
  · rw [if_neg h, if_neg h]

theorem toLower_of_isPySpace (c : Char) (h : isPySpace c = true) : c.toLower = c := by
  simp only [isPySpace, Bool.or_eq_true, decide_eq_true_eq] at h
  rcases h with ((((h | h) | h) | h) | h) | h <;> subst h <;> decide

theorem pyLower_append (a b : String) : pyLower (a ++ b) = pyLower a ++ pyLower b := by
  apply String.ext
  simp [pyLower]

theorem pyLower_ws (w : String) (h : WSOnly w) : pyLower w = w := by
  apply String.ext
  show List.map Char.toLower w.data = w.data
  have hmap : List.map Char.toLower w.data = List.map id w.data :=
    List.map_congr_left (fun c hc => toLower_of_isPySpace c (h c hc))
  rw [hmap, List.map_id]

theorem pyLower_idem (s : String) : pyLower (pyLower s) = pyLower s := by
  apply String.ext
  show List.map Char.toLower (List.map Char.toLower s.data) = List.map Char.toLower s.data
  rw [List.map_map]
  exact List.map_congr_left (fun c _ => toLower_toLower c)

theorem dropWhile_append_all {α : Type} (p : α → Bool) (w l : List α)
    (h : ∀ c ∈ w, p c = true) : (w ++ l).dropWhile p = l.dropWhile p := by
  induction w with
  | nil => rfl
  | cons a t ih =>
    rw [List.cons_append, List.dropWhile_cons, if_pos (h a (by simp))]
    exact ih (fun c hc => h c (by simp [hc]))

theorem dropWhile_append_stay {α : Type} (p : α → Bool) (l w : List α)
    (h : l.dropWhile p ≠ []) : (l ++ w).dropWhile p = l.dropWhile p ++ w := by
  induction l with
  | nil => exact absurd rfl h
  | cons a t ih =>
    by_cases pa : p a = true
    · rw [List.cons_append, List.dropWhile_cons, if_pos pa]
      rw [List.dropWhile_cons, if_pos pa] at h
      rw [List.dropWhile_cons, if_pos pa]
      exact ih h
    · rw [List.cons_append, List.dropWhile_cons, if_neg pa]
      rw [List.dropWhile_cons, if_neg pa]
      rfl

theorem pyStripList_ws_left (w l : List Char) (h : ∀ c ∈ w, isPySpace c = true) :
    pyStripList (w ++ l) = pyStripList l := by
  unfold pyStripList
  rw [dropWhile_append_all isPySpace w l h]

theorem pyStripList_ws_right (l w : List Char) (h : ∀ c ∈ w, isPySpace c = true) :
    pyStripList (l ++ w) = pyStripList l := by
  unfold pyStripList
  by_cases hd : l.dropWhile isPySpace = []
  · have hall : ∀ c ∈ l, isPySpace c = true := by
      intro c hc
      exact List.dropWhile_eq_nil_iff.mp hd c hc
    have h2 : (l ++ w).dropWhile isPySpace = [] := by
      rw [dropWhile_append_all isPySpace l w hall]
      exact List.dropWhile_eq_nil_iff.mpr h
    rw [hd, h2]
  · rw [dropWhile_append_stay isPySpace l w hd]
    rw [List.reverse_append]
    rw [dropWhile_append_all isPySpace w.reverse _
      (fun c hc => h c (List.mem_reverse.mp hc))]

theorem pyStrip_ws (w1 q w2 : String) (h1 : WSOnly w1) (h2 : WSOnly w2) :
    pyStrip (w1 ++ q ++ w2) = pyStrip q := by
  unfold pyStrip
  have hd : (w1 ++ q ++ w2).data = w1.data ++ (q.data ++ w2.data) := by
    simp [List.append_assoc]
  rw [hd, pyStripList_ws_left _ _ h1, pyStripList_ws_right _ _ h2]

theorem question_lower_ws (ws1 question ws2 : String) (h1 : WSOnly ws1) (h2 : WSOnly ws2) :
    question_lower (ws1 ++ question ++ ws2) = question_lower question := by
  unfold question_lower
  rw [pyLower_append, pyLower_append, pyLower_ws ws1 h1, pyLower_ws ws2 h2]
  exact pyStrip_ws _ _ _ h1 h2

theorem question_lower_lower (question : String) :
    question_lower (pyLower question) = question_lower question := by
  unfold question_lower
  rw [pyLower_idem]

end TeacherRag

namespace TeacherRag

/-- Claim C5: the classifier lower-cases and strips the question, tests the
six casual patterns in fixed priority order each anchored at the start of
the string, selects the first matching category's response, and takes the
retrieval branch exactly when no pattern matches; classification is
invariant under surrounding whitespace and under lower-casing, and the
cited examples classify as casual. -/
theorem claim_C5 (question ws1 ws2 : String) (h1 : WSOnly ws1) (h2 : WSOnly ws2) :
    (is_casual question = false ↔
      ∀ p ∈ casual_patterns, pmatch p (question_lower question) = false)
  ∧ (is_casual question = true →
      select_response (question_lower question) =
        respOfIdx (casual_patterns.findIdx (fun p => pmatch p (question_lower question))))
  ∧ question_lower (ws1 ++ question ++ ws2) = question_lower question
  ∧ is_casual (ws1 ++ question ++ ws2) = is_casual question
  ∧ is_casual (pyLower question) = is_casual question
  ∧ is_casual ("hello") = true ∧ is_casual ("Thanks!") = true
  ∧ is_casual ("WHO ARE YOU?") = true ∧ is_casual ("  hello  ") = true
  ∧ is_casual ("What is fine-tuning?") = false := by
  refine ⟨?_, ?_, ?_, ?_, ?_, by decide, by decide, by decide, by decide, by decide⟩
  · simp [is_casual, List.any_eq_true]
  · intro hcas
    by_cases hg : pmatch pat_greeting (question_lower question) = true
    · simp [select_response, hg, casual_patterns, List.findIdx_cons, respOfIdx]
    · simp only [Bool.not_eq_true] at hg
      by_cases hs : pmatch pat_smalltalk (question_lower question) = true
      · simp [select_response, hg, hs, casual_patterns, List.findIdx_cons, respOfIdx]
      · simp only [Bool.not_eq_true] at hs
        by_cases hi : pmatch pat_identity (question_lower question) = true
        · simp [select_response, hg, hs, hi, casual_patterns, List.findIdx_cons, respOfIdx]
        · simp only [Bool.not_eq_true] at hi
          by_cases ht : pmatch pat_thanks (question_lower question) = true
          · simp [select_response, hg, hs, hi, ht, casual_patterns, List.findIdx_cons,
              respOfIdx]
          · simp only [Bool.not_eq_true] at ht
            by_cases hb : pmatch pat_bye (question_lower question) = true
            · simp [select_response, hg, hs, hi, ht, hb, casual_patterns,
                List.findIdx_cons, respOfIdx]
            · simp only [Bool.not_eq_true] at hb
              have hk : pmatch pat_ack (question_lower question) = true := by
                simp [is_casual, casual_patterns, List.any_eq_true, hg, hs, hi, ht, hb]
                  at hcas
                exact hcas
              simp [select_response, hg, hs, hi, ht, hb, hk, casual_patterns,
                List.findIdx_cons, respOfIdx]
  · exact question_lower_ws ws1 question ws2 h1 h2
  · unfold is_casual
    rw [question_lower_ws ws1 question ws2 h1 h2]
  · unfold is_casual
    rw [question_lower_lower]

/-- Witness for claim C5 at a mixed-case question with surrounding
whitespace. -/
theorem claim_C5_witness :
    WSOnly ("  ") ∧ WSOnly (" ")
  ∧ ((is_casual ("HeLLo") = false ↔
        ∀ p ∈ casual_patterns, pmatch p (question_lower ("HeLLo")) = false)
    ∧ (is_casual ("HeLLo") = true →
        select_response (question_lower ("HeLLo")) =
          respOfIdx (casual_patterns.findIdx (fun p => pmatch p (question_lower ("HeLLo")))))
    ∧ question_lower ("  " ++ "HeLLo" ++ " ") = question_lower ("HeLLo")
    ∧ is_casual ("  " ++ "HeLLo" ++ " ") = is_casual ("HeLLo")
    ∧ is_casual (pyLower ("HeLLo")) = is_casual ("HeLLo")
    ∧ is_casual ("hello") = true ∧ is_casual ("Thanks!") = true
    ∧ is_casual ("WHO ARE YOU?") = true ∧ is_casual ("  hello  ") = true
    ∧ is_casual ("What is fine-tuning?") = false) :=
  ⟨by decide, by decide, claim_C5 ("HeLLo") ("  ") (" ") (by decide) (by decide)⟩

end TeacherRag

namespace TeacherRag

/-- Claim C6: on the retrieval branch the emitted stream is the model
fragments as content events in generation order, then exactly one content
event carrying the fixed closing note, then exactly one sources event with
the retrieved chunks in order, then the terminal done event; every event
before the sources event is a content event and done is always last. -/
theorem claim_C6 (deltas : List (Option String)) (srcs : List Source) :
    generate deltas srcs =
      ((fragments deltas).map StreamEvent.content) ++
        [StreamEvent.content closing_message, StreamEvent.sourcesEvent srcs, StreamEvent.done]
  ∧ (∃ pre, generate deltas srcs = pre ++ [StreamEvent.sourcesEvent srcs, StreamEvent.done]
      ∧ (∀ e ∈ pre, isContentEv e = true)
      ∧ pre = ((fragments deltas).map StreamEvent.content) ++
          [StreamEvent.content closing_message])
  ∧ (generate deltas srcs).getLast? = some StreamEvent.done
  ∧ ((generate deltas srcs).filter isSourcesEv) = [StreamEvent.sourcesEvent srcs]
  ∧ ((generate deltas srcs).filter isDoneEv) = [StreamEvent.done] := by
  refine ⟨rfl, ?_, ?_, ?_, ?_⟩
  · refine ⟨((fragments deltas).map StreamEvent.content) ++
      [StreamEvent.content closing_message], ?_, ?_, rfl⟩
    · simp [generate]
    · intro e he
      rcases List.mem_append.mp he with h1 | h2
      · obtain ⟨s, _, rfl⟩ := List.mem_map.mp h1
        rfl
      · simp at h2
        subst h2
        rfl
  · have hshape : generate deltas srcs =
        (((fragments deltas).map StreamEvent.content) ++
          [StreamEvent.content closing_message, StreamEvent.sourcesEvent srcs]) ++
          [StreamEvent.done] := by
      simp [generate]
    rw [hshape, List.getLast?_concat]
  · simp [generate, List.filter_append]
    induction fragments deltas with
    | nil => simp [isSourcesEv, isDoneEv]
    | cons a t ih => simpa [isSourcesEv] using ih
  · simp [generate, List.filter_append]
    induction fragments deltas with
    | nil => simp [isSourcesEv, isDoneEv]
    | cons a t ih => simpa [isDoneEv] using ih

set_option maxRecDepth 4000 in
/-- Claim C7: a casual question short-circuits the endpoint: the response
is the casual stream, one single-character content event per character of
the selected canned response in order, followed immediately by the only
done event, with no sources event, no store query, and no model call; the
cited query selects the fixed greeting. -/
theorem claim_C7 (question : String) (store : Except String QueryResult)
    (model : ModelOutcome) (h : is_casual question = true) :
    query_lecture question store model =
      { response := HttpResponse.streamResp (generate_casual question) none,
        store_queried := false, model_called := false }
  ∧ generate_casual question =
      ((select_response (question_lower question)).data.map
        (fun c => StreamEvent.content (String.mk [c]))) ++ [StreamEvent.done]
  ∧ (∀ e ∈ generate_casual question, isSourcesEv e = false)
  ∧ (generate_casual question).getLast? = some StreamEvent.done
  ∧ ((generate_casual question).filter isDoneEv) = [StreamEvent.done]
  ∧ (generate_casual question).length =
      (select_response (question_lower question)).length + 1
  ∧ select_response (question_lower ("hi there")) = greeting_response := by
  refine ⟨?_, rfl, ?_, ?_, ?_, ?_, by decide⟩
  · simp [query_lecture, h]
  · intro e he
    rcases List.mem_append.mp he with h1 | h2
    · obtain ⟨c, _, rfl⟩ := List.mem_map.mp h1
      rfl
    · simp at h2
      subst h2
      rfl
  · rw [generate_casual, List.getLast?_concat]
  · rw [generate_casual]
    simp [List.filter_append]
    induction (select_response (question_lower question)).data with
    | nil => simp [isDoneEv]
    | cons a t ih => simpa [isDoneEv] using ih
  · rw [generate_casual, List.length_append, List.length_map]
    rfl

/-- Witness for claim C7 at the cited question. -/
theorem claim_C7_witness :
    is_casual ("hi there") = true
  ∧ (query_lecture ("hi there")
        (Except.ok { ids := [], documents := [], metadatas := [] })
        (ModelOutcome.completes []) =
      { response := HttpResponse.streamResp (generate_casual ("hi there")) none,
        store_queried := false, model_called := false }
    ∧ generate_casual ("hi there") =
        ((select_response (question_lower ("hi there"))).data.map
          (fun c => StreamEvent.content (String.mk [c]))) ++ [StreamEvent.done]
    ∧ (∀ e ∈ generate_casual ("hi there"), isSourcesEv e = false)
    ∧ (generate_casual ("hi there")).getLast? = some StreamEvent.done
    ∧ ((generate_casual ("hi there")).filter isDoneEv) = [StreamEvent.done]
    ∧ (generate_casual ("hi there")).length =
        (select_response (question_lower ("hi there"))).length + 1
    ∧ select_response (question_lower ("hi there")) = greeting_response) :=
  ⟨by decide,
    claim_C7 ("hi there") (Except.ok { ids := [], documents := [], metadatas := [] })
      (ModelOutcome.completes []) (by decide)⟩

/-- Claim C8: each QuerySource carries the metadata of its retrieved chunk
in the store's returned order, and its excerpt is the full chunk text when
at most 200 characters, else the first 200 characters followed by the
ellipsis marker. -/
theorem claim_C8 (ids documents : List String) (metadatas : List ChromaMetadata)
    (h1 : documents.length = ids.length) (h2 : metadatas.length = ids.length) :
    (buildSources ids documents metadatas).length = ids.length
  ∧ (∀ doc : String, (doc.length ≤ 200 → excerpt doc = doc) ∧
      (200 < doc.length → excerpt doc = String.mk (doc.data.take 200) ++ "..."))
  ∧ ∀ i, i < ids.length →
      (buildSources ids documents metadatas).getD i defaultSource =
        { course := ((metadatas.getD i defaultMetadata).course.getD ("Unknown")),
          lecture := ((metadatas.getD i defaultMetadata).lecture.getD ("Unknown")),
          timestamp_start :=
            ((metadatas.getD i defaultMetadata).timestamp_start.getD ("00:00:00.000")),
          timestamp_end :=
            ((metadatas.getD i defaultMetadata).timestamp_end.getD ("00:00:00.000")),
          text := excerpt (documents.getD i ("")) } := by
  refine ⟨by simp [buildSources], ?_, ?_⟩
  · intro doc
    constructor
    · intro hle
      unfold excerpt
      rw [if_neg (by omega)]
    · intro hgt
      unfold excerpt
      rw [if_pos hgt]
  · intro i hi
    unfold buildSources
    rw [List.getD_eq_getElem?_getD, List.getElem?_map]
    rw [List.getElem?_range hi]
    rfl

/-- Witness for claim C8 at two retrieved chunks with partial metadata. -/
theorem claim_C8_witness :
    (["doc one", "doc two"] : List String).length = (["id1", "id2"] : List String).length
  ∧ ([({ course := some ("ML"), lecture := none, timestamp_start := some ("00:01"), timestamp_end := none } : ChromaMetadata), defaultMetadata]).length = (["id1", "id2"] : List String).length
  ∧ ((buildSources ["id1", "id2"] ["doc one", "doc two"]
        [({ course := some ("ML"), lecture := none, timestamp_start := some ("00:01"), timestamp_end := none } : ChromaMetadata), defaultMetadata]).length =
      (["id1", "id2"] : List String).length
    ∧ (∀ doc : String, (doc.length ≤ 200 → excerpt doc = doc) ∧
        (200 < doc.length → excerpt doc = String.mk (doc.data.take 200) ++ "..."))
    ∧ ∀ i, i < (["id1", "id2"] : List String).length →
        (buildSources ["id1", "id2"] ["doc one", "doc two"]
          [({ course := some ("ML"), lecture := none, timestamp_start := some ("00:01"), timestamp_end := none } : ChromaMetadata), defaultMetadata]).getD i defaultSource =
          { course := ((([({ course := some ("ML"), lecture := none, timestamp_start := some ("00:01"), timestamp_end := none } : ChromaMetadata), defaultMetadata]).getD i defaultMetadata).course.getD ("Unknown")),
            lecture := ((([({ course := some ("ML"), lecture := none, timestamp_start := some ("00:01"), timestamp_end := none } : ChromaMetadata), defaultMetadata]).getD i defaultMetadata).lecture.getD ("Unknown")),
            timestamp_start := ((([({ course := some ("ML"), lecture := none, timestamp_start := some ("00:01"), timestamp_end := none } : ChromaMetadata), defaultMetadata]).getD i defaultMetadata).timestamp_start.getD ("00:00:00.000")),
            timestamp_end := ((([({ course := some ("ML"), lecture := none, timestamp_start := some ("00:01"), timestamp_end := none } : ChromaMetadata), defaultMetadata]).getD i defaultMetadata).timestamp_end.getD ("00:00:00.000")),
            text := excerpt ((["doc one", "doc two"] : List String).getD i ("")) }) :=
  ⟨by decide, by decide,
    claim_C8 ["id1", "id2"] ["doc one", "doc two"]
      [({ course := some ("ML"), lecture := none, timestamp_start := some ("00:01"), timestamp_end := none } : ChromaMetadata), defaultMetadata] (by decide) (by decide)⟩

end TeacherRag

namespace TeacherRag

/-- Claim C9 (amended): a failing store query — raised before the streaming
response is returned — aborts the request with HTTP 500 carrying the
exception message; an exception raised during model streaming is not
caught by the handler: the stream is cut off after the already-emitted
content events with no error response (and no sources or done event). -/
theorem claim_C9 (question : String) (res : QueryResult) (deltas : List (Option String))
    (e : String) (hnc : is_casual question = false) :
    (∀ model : ModelOutcome,
        query_lecture question (Except.error e) model =
          { response := HttpResponse.errorResp 500 e, store_queried := true,
            model_called := false })
  ∧ (query_lecture question (Except.ok res) (ModelOutcome.failsAfter deltas e)).response =
      HttpResponse.streamResp ((fragments deltas).map StreamEvent.content) (some e)
  ∧ (∀ status detail,
      (query_lecture question (Except.ok res) (ModelOutcome.failsAfter deltas e)).response ≠
        HttpResponse.errorResp status detail) := by
  refine ⟨?_, ?_, ?_⟩
  · intro model
    simp [query_lecture, hnc]
  · simp [query_lecture, hnc]
  · intro status detail
    simp [query_lecture, hnc]

/-- Claim C9 as stated is false: an exception raised while streaming the
model completion does not produce an HTTP 500 response carrying its
message — the already-returned stream is merely aborted. -/
theorem claim_C9_counterexample :
    is_casual ("What is RAG?") = false
  ∧ (query_lecture ("What is RAG?")
        (Except.ok { ids := [], documents := [], metadatas := [] })
        (ModelOutcome.failsAfter [] ("boom"))).response =
      HttpResponse.streamResp [] (some ("boom"))
  ∧ (query_lecture ("What is RAG?")
        (Except.ok { ids := [], documents := [], metadatas := [] })
        (ModelOutcome.failsAfter [] ("boom"))).response ≠
      HttpResponse.errorResp 500 ("boom") := by
  refine ⟨by decide, by decide, by decide⟩

/-- Witness for claim C9 at a concrete non-casual question. -/
theorem claim_C9_witness :
    is_casual ("What is RAG?") = false
  ∧ ((∀ model : ModelOutcome,
        query_lecture ("What is RAG?") (Except.error ("boom")) model =
          { response := HttpResponse.errorResp 500 ("boom"), store_queried := true,
            model_called := false })
    ∧ (query_lecture ("What is RAG?")
          (Except.ok { ids := [], documents := [], metadatas := [] })
          (ModelOutcome.failsAfter [some ("tok")] ("boom"))).response =
        HttpResponse.streamResp
          ((fragments [some ("tok")]).map StreamEvent.content) (some ("boom"))
    ∧ (∀ status detail,
        (query_lecture ("What is RAG?")
            (Except.ok { ids := [], documents := [], metadatas := [] })
            (ModelOutcome.failsAfter [some ("tok")] ("boom"))).response ≠
          HttpResponse.errorResp status detail)) :=
  ⟨by decide,
    claim_C9 ("What is RAG?") { ids := [], documents := [], metadatas := [] }
      [some ("tok")] ("boom") (by decide)⟩

/-- COLLECTION_NAME from ingest.py line 16. -/
def COLLECTION_NAME : String := "lecture_transcript"

/-- The metadata attached to one indexed chunk (ingest.py lines 182-188). -/
structure IngestMeta where
  course : String
  lecture : String
  timestamp_start : Option String
  timestamp_end : Option String
  chunk_index : Nat
deriving DecidableEq

/-- One operation ingest_data performs against the vector store, in program
order: the initial delete (tolerating absence), the create, then one add
per batch.  Generated uuid ids are opaque and omitted. -/
inductive StoreOp where
  | deleteCollection (name : String)
  | createCollection (name : String)
  | addBatch (documents : List String) (metadatas : List IngestMeta)
deriving DecidableEq

/-- The documents and metadata one lecture file contributes (ingest.py
lines 166-189): parse, chunk with CHUNK_SIZE, and attach course, lecture
and the 0-based chunk index. -/
def lectureChunks (course lecture : String) (content : String) :
    List (String × IngestMeta) :=
  ((create_chunks_from_segments (parse_webvtt_content content) CHUNK_SIZE).enum).map
    (fun p => (p.2.text,
      { course := course, lecture := lecture, timestamp_start := p.2.timestamp_start,
        timestamp_end := p.2.timestamp_end, chunk_index := p.1 }))

/-- All documents collected over the course folders in order (ingest.py
lines 148-193); a lecture whose read or parse raises is skipped. -/
def collectDocs (courses : List (String × List (String × Except String String))) :
    List (String × IngestMeta) :=
  (courses.map (fun cf =>
    (cf.2.map (fun lf =>
      match lf.2 with
      | Except.ok content => lectureChunks cf.1 lf.1 content
      | Except.error _ => [])).flatten)).flatten

/-- Python slicing into fixed batches: range(0, n, size) with l[i:i+size]
(ingest.py lines 200-207). -/
def batched {α : Type} (n : Nat) : List α → List (List α)
  | [] => []
  | x :: xs => (x :: xs.take (n - 1)) :: batched n (xs.drop (n - 1))
termination_by l => l.length
decreasing_by
  simp only [List.length_cons, List.length_drop]
  omega

/-- ingest_data (ingest.py lines 107-228) as its trace of store operations
plus the fatal error, if any: the collection is deleted and recreated
first (lines 119-135), the data-directory check raises afterwards (lines
142-144), and otherwise all collected documents are written in batches of
50 (batch add failures are logged and skipped, leaving the trace of
attempts). -/
def ingest_data (dataDirExists : Bool)
    (courses : List (String × List (String × Except String String))) :
    List StoreOp × Option String :=
  let pre := [StoreOp.deleteCollection COLLECTION_NAME,
              StoreOp.createCollection COLLECTION_NAME]
  if dataDirExists = false then (pre, some ("Data directory not found"))
  else
    (pre ++ (batched 50 (collectDocs courses)).map (fun b =>
      StoreOp.addBatch (b.map Prod.fst) (b.map Prod.snd)), none)

/-- Claim C10: on every run the store collection is deleted and recreated
before anything else; in particular a run whose root data directory is
missing has already wiped and recreated the collection when the fatal
check raises, so an aborted run never leaves the previously persisted
collection unchanged. -/
theorem claim_C10 (courses : List (String × List (String × Except String String))) :
    ingest_data false courses =
      ([StoreOp.deleteCollection COLLECTION_NAME,
        StoreOp.createCollection COLLECTION_NAME], some ("Data directory not found"))
  ∧ (∀ dirExists : Bool, (ingest_data dirExists courses).1.take 2 =
      [StoreOp.deleteCollection COLLECTION_NAME,
       StoreOp.createCollection COLLECTION_NAME])
  ∧ (ingest_data true courses).2 = none := by
  refine ⟨rfl, ?_, rfl⟩
  intro dirExists
  cases dirExists with
  | false => rfl
  | true => rfl

end TeacherRag
